import Mathlib

set_option linter.unusedVariables false

/-! Verification development for the tool-runtime engine of the jarvis-OS Python
bridge: a shallow embedding of `bridges/python/src/sdk/base_tool.py`,
`bridges/python/src/sdk/toolkit_config.py` and `bridges/python/src/sdk/utils.py`,
together with theorems checking the natural-language specification against the
code. Machine integers are modelled as `Nat`/`Int`; filesystem and subprocess
effects are modelled by explicit state passing; fallible code returns `Except`. -/

namespace JarvisOS

/-! ## Generic string helpers -/

/-- Split a character list at the first occurrence of `c`; `none` when `c` is
absent. Mirrors the find-then-slice idiom used by `urllib.parse`. -/
def splitFirst (c : Char) : List Char → Option (List Char × List Char)
  | [] => none
  | x :: xs =>
    if x = c then some ([], xs)
    else
      match splitFirst c xs with
      | some (a, b) => some (x :: a, b)
      | none => none

/-- `os.path.basename` for slash-separated paths: the part after the last slash. -/
def basename (p : String) : String :=
  String.mk ((p.data.reverse.takeWhile (fun c => c != '/')).reverse)

/-- Does `needle` occur as a contiguous run inside `hay`? -/
def listInfix (needle : List Char) : List Char → Bool
  | [] => needle.isEmpty
  | c :: t => needle.isPrefixOf (c :: t) || listInfix needle t

/-- Substring test, Python `needle in haystack`. -/
def containsSubstr (haystack needle : String) : Bool :=
  listInfix needle.data haystack.data

/-- Python `str.lower()` over the ASCII range (all strings lowered by the SDK —
OS names, architecture tags, tool names — are ASCII). -/
def strToLower (s : String) : String :=
  String.mk (s.data.map Char.toLower)

/-- Python `str.startswith`. -/
def strStartsWith (s pre : String) : Bool :=
  pre.data.isPrefixOf s.data

/-- Python `str.endswith`. -/
def strEndsWith (s suffixStr : String) : Bool :=
  (suffixStr.data.reverse).isPrefixOf s.data.reverse

/-! ## Model of `urllib.parse.urlparse` (CPython 3.11 `urlsplit`), restricted to
the fields the SDK reads (`scheme` and `path`). -/

/-- Result of `urllib.parse.urlparse` restricted to the fields the SDK reads. -/
structure UrlSplit where
  scheme : String
  netloc : String
  path : String
  query : String
  fragment : String
deriving DecidableEq, Repr

/-- Characters allowed after the first character of a URL scheme
(`urllib.parse.scheme_chars`). -/
def schemeChar (c : Char) : Bool :=
  c.isAlpha || c.isDigit || c = '+' || c = '-' || c = '.'

/-- CPython removes tab, carriage return and line feed from the URL before
parsing (`_UNSAFE_URL_BYTES_TO_REMOVE`). -/
def stripUnsafeBytes (cs : List Char) : List Char :=
  cs.filter (fun c => c != '\t' && c != '\r' && c != '\n')

/-- Scheme detection of `urllib.parse.urlsplit`: the text before the first colon
is the scheme when it is non-empty, starts with an ASCII letter and continues
with scheme characters only; the scheme is lowercased. Returns
`(scheme, remainder)`. -/
def splitScheme (url : List Char) : String × List Char :=
  match splitFirst ':' url with
  | none => ("", url)
  | some (before, after) =>
    match before with
    | [] => ("", url)
    | c0 :: cs =>
      if c0.isAlpha && cs.all schemeChar then
        (String.mk ((c0 :: cs).map Char.toLower), after)
      else ("", url)

/-- Netloc extraction: when the remainder starts with a double slash, the netloc
runs to the next slash, question mark or hash; mismatched square brackets make
CPython raise `ValueError` (modelled as `Except.error`). -/
def splitNetloc (rest : List Char) : Except Unit (List Char × List Char) :=
  match rest with
  | '/' :: '/' :: r =>
    let netloc := r.takeWhile (fun c => c != '/' && c != '?' && c != '#')
    let remainder := r.dropWhile (fun c => c != '/' && c != '?' && c != '#')
    if (netloc.contains '[' && !(netloc.contains ']')) ||
        (netloc.contains ']' && !(netloc.contains '[')) then
      .error ()
    else .ok (netloc, remainder)
  | _ => .ok ([], rest)

/-- Model of `urllib.parse.urlparse` as used by the SDK. Deep bracketed-host
validation beyond the mismatched-bracket check is not modelled (the SDK never
passes bracketed hosts); `params` splitting is irrelevant because only `scheme`
and `path` are read. -/
def urlparse (url : String) : Except Unit UrlSplit :=
  let cs := stripUnsafeBytes url.data
  let (scheme, rest1) := splitScheme cs
  match splitNetloc rest1 with
  | .error _ => .error ()
  | .ok (netloc, rest2) =>
    let (rest3, fragment) :=
      match splitFirst '#' rest2 with
      | some (a, b) => (a, String.mk b)
      | none => (rest2, "")
    let (path, query) :=
      match splitFirst '?' rest3 with
      | some (a, b) => (String.mk a, String.mk b)
      | none => (String.mk rest3, "")
    .ok { scheme := scheme, netloc := String.mk netloc, path := path,
          query := query, fragment := fragment }

/-! ## `utils.py` -/

/-- `utils.get_platform_name`, as a pure function of `platform.system()`,
`platform.machine()` and `platform.processor()`. -/
def get_platform_name (system machine processor : String) : String :=
  let sys := strToLower system
  let architecture := strToLower machine
  if sys = "linux" then
    if architecture = "x86_64" || architecture = "amd64" then "linux-x86_64"
    else if architecture = "aarch64" || architecture = "arm64" then "linux-aarch64"
    else "linux-x86_64"
  else if sys = "darwin" then
    if architecture = "arm64" || architecture = "aarch64" ||
        containsSubstr (strToLower processor) "apple" then
      "macosx-arm64"
    else "macosx-x86_64"
  else if sys = "windows" then "win-amd64"
  else "unknown"

/-- `utils.is_windows`, as a function of the resolved platform tag. -/
def is_windows (platformName : String) : Bool := strStartsWith platformName "win"

/-- `utils.is_macos`, as a function of the resolved platform tag. -/
def is_macos (platformName : String) : Bool := strStartsWith platformName "macosx"

def HUGGING_FACE_URL : String := "https://huggingface.co"

def HUGGING_FACE_MIRROR_URL : String := "https://hf-mirror.com"

/-- `utils.set_hugging_face_url`; the network probe `can_access_hugging_face` is
a boolean input of the model. -/
def set_hugging_face_url (canAccess : Bool) (url : String) : String :=
  if !(containsSubstr url "huggingface.co") then url
  else if !canAccess then url.replace HUGGING_FACE_URL HUGGING_FACE_MIRROR_URL
  else url

/-! ## `BaseTool._escape_shell_arg` -/

/-- The single-quote character (written by code point to keep literals plain). -/
def squoteChar : Char := Char.ofNat 39

/-- The backquote character (written by code point to keep literals plain). -/
def backquoteChar : Char := Char.ofNat 96

/-- Python regex `\s` over the ASCII range (the SDK only escapes command-line
arguments, which are ASCII in all uses). -/
def pyWhitespace (c : Char) : Bool :=
  c = ' ' || c = '\t' || c = '\n' || c = '\r' || c = '\x0b' || c = '\x0c'

/-- The POSIX character class of `BaseTool._escape_shell_arg`. -/
def posixSpecialChar (c : Char) : Bool :=
  c = '"' || pyWhitespace c || c = squoteChar || c = '$' || c = backquoteChar ||
  c = '\\' || c = '(' || c = ')' || c = '{' || c = '}' || c = '[' || c = ']' ||
  c = '|' || c = '&' || c = ';' || c = '<' || c = '>' || c = '*' || c = '?' || c = '!'

/-- POSIX branch of `BaseTool._escape_shell_arg`: `re.sub` prefixing every
special character with a backslash. -/
def escapePosix (arg : String) : String :=
  String.mk (arg.data.foldr
    (fun c acc => if posixSpecialChar c then '\\' :: c :: acc else c :: acc) [])

/-- Windows branch of `BaseTool._escape_shell_arg`: wrap in double quotes when
the argument contains a space, a double quote, an ampersand or a pipe, escaping
internal double quotes with a backslash. -/
def escapeWindows (arg : String) : String :=
  if arg.data.contains ' ' || arg.data.contains '"' ||
      arg.data.contains '&' || arg.data.contains '|' then
    String.mk ('"' :: arg.data.foldr
      (fun c acc => if c = '"' then '\\' :: c :: acc else c :: acc) ['"'])
  else arg

/-- `BaseTool._escape_shell_arg`; `is_windows()` is supplied as the boolean
`onWindows`. A `ValueError` from `urlparse` (mismatched IPv6 brackets) falls
through to normal escaping, as in the Python `try`/`except`. -/
def _escape_shell_arg (onWindows : Bool) (arg : String) : String :=
  let isUrl :=
    match urlparse arg with
    | .ok parsed => parsed.scheme != ""
    | .error _ => false
  if isUrl then arg
  else if onWindows then escapeWindows arg
  else escapePosix arg

/-! ## `toolkit_config.py` -/

/-- A tool's configuration entry (`toolkit.json` tool record): binaries keyed by
platform tag, resources keyed by resource name. -/
structure ToolConfig where
  binaries : List (String × String)
  resources : List (String × List String)
deriving DecidableEq, Repr

/-- `ToolkitConfig.get_binary_url`: a total lookup of the current platform tag in
the `binaries` map; absence yields `none`, never an exception. -/
def get_binary_url (config : ToolConfig) (platformName : String) : Option String :=
  config.binaries.lookup platformName

/-! ## Versioned binary filename pattern and pruning
(`BaseTool._delete_older_binary_versions`) -/

/-- Greedy `\d+` at the head of the input: `(digit run, remainder)`.
Python `\d` also accepts non-ASCII digits; filenames here are ASCII. -/
def takeDigits (cs : List Char) : List Char × List Char :=
  (cs.takeWhile Char.isDigit, cs.dropWhile Char.isDigit)

/-- Match `(\d+\.\d+\.\d+)-` at the head: returns the version text and the
remainder after the dash. The greedy `\d+` runs cannot backtrack usefully here
because each is followed by a literal, so the match is deterministic. -/
def matchVersion (cs : List Char) : Option (List Char × List Char) :=
  let (d1, r1) := takeDigits cs
  if d1.isEmpty then none
  else
    match r1 with
    | '.' :: r1b =>
      let (d2, r2) := takeDigits r1b
      if d2.isEmpty then none
      else
        match r2 with
        | '.' :: r2b =>
          let (d3, r3) := takeDigits r2b
          if d3.isEmpty then none
          else
            match r3 with
            | '-' :: rest => some (d1 ++ '.' :: d2 ++ '.' :: d3, rest)
            | _ => none
        | _ => none
    | _ => none

/-- Match `(.*?)(?:\.exe)?$` against the rest of the filename: the lazy group
takes the shortest text, so a trailing `.exe` is stripped when present. `.` does
not match a newline, so a platform text containing one fails the pattern. -/
def matchPlatform (cs : List Char) : Option (List Char) :=
  let exe : List Char := ['.', 'e', 'x', 'e']
  let base :=
    if cs.length ≥ 4 && decide (cs.drop (cs.length - 4) = exe) then
      cs.take (cs.length - 4)
    else cs
  if base.contains '\n' then none else some base

/-- Backtracking over the lazy `(.+?)_` group of the binary-filename regex
`^(.+?)_(\d+\.\d+\.\d+)-(.*?)(?:\.exe)?$`: candidate splits are the underscore
positions, tried left to right (shortest group first); `rev` holds the group-1
candidate reversed. -/
def parseVersionedAux (rev : List Char) : List Char → Option (String × String × String)
  | [] => none
  | c :: rest =>
    if c = '_' && !rev.isEmpty then
      match matchVersion rest with
      | some (v, r2) =>
        match matchPlatform r2 with
        | some p =>
          if rev.contains '\n' then parseVersionedAux (c :: rev) rest
          else some (String.mk rev.reverse, String.mk v, String.mk p)
        | none => parseVersionedAux (c :: rev) rest
      | none => parseVersionedAux (c :: rev) rest
    else parseVersionedAux (c :: rev) rest

/-- `re.match` of the versioned-binary pattern, returning the three groups
`(base_name, version, platform)` when the filename matches. -/
def parseVersionedName (s : String) : Option (String × String × String) :=
  parseVersionedAux [] s.data

/-- The deletion condition of `_delete_older_binary_versions`: the scanned file
matches the pattern, with the same base name and platform but another version. -/
def shouldDeleteFile (base version plat : String) (file : String) : Bool :=
  match parseVersionedName file with
  | some (fb, fv, fp) => fb = base && fp = plat && fv != version
  | none => false

/-- The scan-and-delete loop of `_delete_older_binary_versions`, over the
listing of the bins directory. `failRemove` is the set of filenames whose
`os.remove` raises; the surrounding `except` swallows the exception, so the loop
stops there and the remaining listing survives untouched. -/
def pruneLoop (base version plat : String) (failRemove : List String) :
    List String → List String
  | [] => []
  | f :: rest =>
    if shouldDeleteFile base version plat f then
      if failRemove.contains f then f :: rest
      else pruneLoop base version plat failRemove rest
    else f :: pruneLoop base version plat failRemove rest

/-- `BaseTool._delete_older_binary_versions`, as a function from the bins
listing to the listing after pruning. A new filename that does not match the
versioned pattern skips pruning entirely; every failure is swallowed, so the
function is total. -/
def _delete_older_binary_versions (binsFiles : List String) (newExecutable : String)
    (failRemove : List String) : List String :=
  match parseVersionedName newExecutable with
  | none => binsFiles
  | some (b, v, p) => pruneLoop b v p failRemove binsFiles

/-! ## Binary acquisition (`BaseTool.get_binary_path` /
`BaseTool._download_binary_on_demand`)

The filesystem is modelled per toolkit bins directory: whether the directory
exists and the list of filenames inside it (`get_binary_path` only tests
existence of binaries, never their size). Observable effects — network
transfers, directory creations, permission changes, quarantine removals — are
recorded in an effect log. Transfers themselves succeed in this model (the
post-transfer non-empty check of `_download_binary` then passes); claims about
failing transfers are stated on the resource path, which models them. -/

/-- Errors of the SDK, named after the taxonomy of the specification; each is
raised as a plain `Exception` with the matching message in the Python source. -/
inductive ToolError where
  | noBinaryUrl (binaryName : String)
  | invalidUrl (url : String)
  | noResourceUrls (resourceName : String)
  | resourceFileDownloadFailed (fileName : String)
  | downloadFailed (msg : String)
  | commandFailed (exitCode : Int) (stderr : String)
  | commandTimeout (timeout : Nat)
  | commandError (msg : String)
deriving DecidableEq, Repr

/-- State of one toolkit's bins directory. -/
structure BinsState where
  binsDirExists : Bool
  files : List String
deriving DecidableEq, Repr

/-- Effect log of one binary acquisition. -/
structure BinEffects where
  downloads : List String
  dirsCreated : List String
  chmods : List (String × Nat)
  quarantineRemovals : List String
deriving DecidableEq, Repr

/-- The empty effect log. -/
def BinEffects.none : BinEffects :=
  { downloads := [], dirsCreated := [], chmods := [], quarantineRemovals := [] }

/-- Result of a `get_binary_path` run: final state, effect log, and the returned
path or raised error. -/
structure BinRun where
  state : BinsState
  effects : BinEffects
  outcome : Except ToolError String
deriving Repr

/-- `BaseTool._download_binary_on_demand` on the bins state: transfer the file
(non-empty in this model), prune superseded versions, make the binary executable
off Windows, and strip the quarantine attribute on macOS. `failRemove` models
filenames whose deletion raises during pruning. -/
def _download_binary_on_demand (platformName binaryUrl executable binaryPath : String)
    (failRemove : List String) (fs : BinsState) : BinsState × BinEffects :=
  let files1 := executable :: fs.files.erase executable
  let files2 := _delete_older_binary_versions files1 executable failRemove
  let chmods := if is_windows platformName then [] else [(binaryPath, 493)]
  let quarantines := if is_macos platformName then [binaryPath] else []
  ({ binsDirExists := fs.binsDirExists, files := files2 },
   { downloads := [binaryUrl], dirsCreated := [], chmods := chmods,
     quarantineRemovals := quarantines })

/-- `BaseTool.get_binary_path`. Inputs: the toolkits root and toolkit name (for
path construction), the loaded tool configuration, the resolved platform tag,
the binary name, the `skip_binary_download` flag, the pruning failure set, and
the bins state. Mirrors the source order: the `NoBinaryUrl` check precedes any
directory creation; the executable permission bit is re-applied on every
successful non-Windows call, downloaded or not. -/
def get_binary_path (toolkitsPath toolkit : String) (config : ToolConfig)
    (platformName binaryName : String) (skipBinaryDownload : Bool)
    (failRemove : List String) (fs : BinsState) : BinRun :=
  if skipBinaryDownload then
    { state := fs, effects := BinEffects.none, outcome := .ok binaryName }
  else
    match get_binary_url config platformName with
    | Option.none =>
      { state := fs, effects := BinEffects.none,
        outcome := .error (.noBinaryUrl binaryName) }
    | some binaryUrl =>
      if binaryUrl = "" then
        { state := fs, effects := BinEffects.none,
          outcome := .error (.noBinaryUrl binaryName) }
      else
        match urlparse binaryUrl with
        | .error _ =>
          { state := fs, effects := BinEffects.none,
            outcome := .error (.invalidUrl binaryUrl) }
        | .ok parsedUrl =>
          let actualFilename := basename parsedUrl.path
          let executable :=
            if is_windows platformName && !(strEndsWith actualFilename ".exe") then
              actualFilename ++ ".exe"
            else actualFilename
          let binsPath := toolkitsPath ++ "/" ++ toolkit ++ "/bins"
          let created := if fs.binsDirExists then [] else [binsPath]
          let fs1 : BinsState := { binsDirExists := true, files := fs.files }
          let binaryPath := binsPath ++ "/" ++ executable
          let (fs2, dlEff) :=
            if executable ∈ fs1.files then (fs1, BinEffects.none)
            else _download_binary_on_demand platformName binaryUrl executable
                binaryPath failRemove fs1
          let chmodEff := if is_windows platformName then [] else [(binaryPath, 493)]
          { state := fs2,
            effects :=
              { downloads := dlEff.downloads,
                dirsCreated := created ++ dlEff.dirsCreated,
                chmods := dlEff.chmods ++ chmodEff,
                quarantineRemovals := dlEff.quarantineRemovals },
            outcome := .ok binaryPath }

/-! ## Resource bundle acquisition (`BaseTool.get_resource_path` /
`BaseTool._is_resource_complete`)

The resource directory is modelled as an existence flag plus a listing of
`(filename, size)` pairs. A transfer oracle `transfer : String → Option Nat`
gives, per URL, the size of the file it leaves behind (`Option.none` when the
transfer leaves no file at all). -/

/-- Filename derivation shared by the completeness check and the download loop:
`os.path.basename(urlparse(url).path).split(chr(63))[0]` — the basename of the
parsed URL path, with anything from the first question mark on dropped. A
`ValueError` from `urlparse` propagates. -/
def resource_file_name (url : String) : Except Unit String :=
  match urlparse url with
  | .error _ => .error ()
  | .ok parsed => .ok (String.mk ((basename parsed.path).data.takeWhile (fun c => c != '?')))

/-- `BaseTool._is_resource_complete`: every declared URL must have its derived
file present with non-zero size. Short-circuits at the first missing or empty
file, exactly as the Python loop returns `False` early. -/
def _is_resource_complete (files : List (String × Nat)) :
    List String → Except Unit Bool
  | [] => .ok true
  | url :: rest =>
    match resource_file_name url with
    | .error _ => .error ()
    | .ok name =>
      match files.lookup name with
      | Option.none => .ok false
      | some size =>
        if size = 0 then .ok false
        else _is_resource_complete files rest

/-- State of one resource directory. -/
structure ResState where
  dirExists : Bool
  files : List (String × Nat)
deriving DecidableEq, Repr

/-- Write (or overwrite) a file of the resource directory. -/
def writeResFile (name : String) (size : Nat) (files : List (String × Nat)) :
    List (String × Nat) :=
  (name, size) :: files.filter (fun p => p.1 != name)

/-- The download loop of `get_resource_path`: each URL is mirror-adjusted,
transferred, and verified non-empty; the first file left missing or empty raises
`ResourceFileDownloadFailed` naming that file, and no later URL is attempted.
Returns the state, the list of URLs for which a transfer was started, and the
outcome. -/
def downloadResourceFiles (hfAccessible : Bool) (transfer : String → Option Nat) :
    List String → ResState → ResState × List String × Except ToolError Unit
  | [], st => (st, [], .ok ())
  | url :: rest, st =>
    let adjusted := set_hugging_face_url hfAccessible url
    match resource_file_name adjusted with
    | .error _ => (st, [], .error (.invalidUrl adjusted))
    | .ok name =>
      match transfer adjusted with
      | Option.none => (st, [adjusted], .error (.resourceFileDownloadFailed name))
      | some size =>
        let st1 : ResState := { st with files := writeResFile name size st.files }
        if size = 0 then (st1, [adjusted], .error (.resourceFileDownloadFailed name))
        else
          let (st2, attempted, out) := downloadResourceFiles hfAccessible transfer rest st1
          (st2, adjusted :: attempted, out)

/-- Result of a `get_resource_path` run. -/
structure ResRun where
  state : ResState
  dirsCreated : List String
  attempted : List String
  outcome : Except ToolError String
deriving Repr

/-- `BaseTool.get_resource_path`: resolve the declared URL list (`NoResourceUrls`
when absent or empty), ensure the directory, return it at once when the bundle
is complete, and otherwise run the download loop. -/
def get_resource_path (toolkitsPath toolkit : String) (config : ToolConfig)
    (resourceName : String) (hfAccessible : Bool) (transfer : String → Option Nat)
    (st : ResState) : ResRun :=
  match config.resources.lookup resourceName with
  | Option.none =>
    { state := st, dirsCreated := [], attempted := [],
      outcome := .error (.noResourceUrls resourceName) }
  | some resourceUrls =>
    if resourceUrls = [] then
      { state := st, dirsCreated := [], attempted := [],
        outcome := .error (.noResourceUrls resourceName) }
    else
      let resourcePath := toolkitsPath ++ "/" ++ toolkit ++ "/bins/" ++ resourceName
      let created := if st.dirExists then [] else [resourcePath]
      let st1 : ResState := { dirExists := true, files := st.files }
      match _is_resource_complete st1.files resourceUrls with
      | .error _ =>
        { state := st1, dirsCreated := created, attempted := [],
          outcome := .error (.invalidUrl "") }
      | .ok true =>
        { state := st1, dirsCreated := created, attempted := [],
          outcome := .ok resourcePath }
      | .ok false =>
        let (st2, attempted, out) := downloadResourceFiles hfAccessible transfer resourceUrls st1
        { state := st2, dirsCreated := created, attempted := attempted,
          outcome :=
            match out with
            | .ok _ => .ok resourcePath
            | .error e => .error e }

/-! ## Synchronous command execution (`BaseTool._execute_sync_command`)

`subprocess.run` is modelled by its documented contract: a launch failure raises
at spawn; otherwise, with a configured timeout smaller than the command's
running time, `subprocess.TimeoutExpired` carries exactly the configured
timeout; otherwise the process completes with its exit code, stdout and
stderr. -/

/-- Behaviour of the spawned command: whether the spawn itself succeeds, how
long the command runs (seconds), and its terminal exit code and output. -/
structure CommandBehavior where
  launchOk : Bool
  launchErrorMsg : String
  runSeconds : Nat
  exitCode : Int
  stdout : String
  stderr : String
deriving DecidableEq, Repr

/-- Outcome of `subprocess.run` under the model above. -/
inductive RunOutcome where
  | completed (exitCode : Int) (stdout stderr : String)
  | timedOut (timeout : Nat)
  | launchFailure (msg : String)
deriving DecidableEq, Repr

/-- `subprocess.run(command, capture_output=True, shell=True, timeout=...)`. -/
def runProcess (behavior : CommandBehavior) (timeout : Option Nat) : RunOutcome :=
  if !behavior.launchOk then .launchFailure behavior.launchErrorMsg
  else
    match timeout with
    | some t =>
      if behavior.runSeconds > t then .timedOut t
      else .completed behavior.exitCode behavior.stdout behavior.stderr
    | Option.none => .completed behavior.exitCode behavior.stdout behavior.stderr

/-- `BaseTool._execute_sync_command`: exit code zero returns the captured
stdout; a non-zero exit raises `CommandFailed` with the exit code and stderr;
`subprocess.TimeoutExpired` raises `CommandTimeout` with the configured
duration; any other launch failure raises `CommandError`. -/
def _execute_sync_command (behavior : CommandBehavior) (timeout : Option Nat) :
    Except ToolError String :=
  match runProcess behavior timeout with
  | .completed code out err =>
    if code = 0 then .ok out else .error (.commandFailed code err)
  | .timedOut t => .error (.commandTimeout t)
  | .launchFailure msg => .error (.commandError msg)

/-! ## Download progress throttling (`BaseTool._handle_download_progress`) -/

/-- One polled observation of the live download state: the integer percent
(`int(dl.progress)`), the failure flag (`dl.Failed`) and the poll's wall-clock
time in milliseconds (`int(time.time() * 1000)`). -/
structure DlSample where
  progress : Nat
  failed : Bool
  timeMs : Nat
deriving DecidableEq, Repr

/-- The `while dl.progress < 100 and not dl.Failed` loop, over the sequence of
polled samples. `lastLogged` starts at `-1` and `lastLogTime` at `0`, as in the
source. Returns the percents of the emitted progress lines, and the failure
flag observed at the terminal sample (`Option.none` when the sample sequence
is exhausted before a terminal state — the real loop would keep polling). -/
def progressLoop (lastLogged : Int) (lastLogTime : Nat) :
    List DlSample → List Nat × Option Bool
  | [] => ([], Option.none)
  | s :: rest =>
    if s.progress < 100 && !s.failed then
      if (s.progress : Int) ≥ lastLogged + 5 || s.timeMs - lastLogTime ≥ 2000 ||
          s.progress = 100 then
        let (log, term) := progressLoop (s.progress : Int) s.timeMs rest
        (s.progress :: log, term)
      else progressLoop lastLogged lastLogTime rest
    else ([], some s.failed)

/-- `BaseTool._handle_download_progress`: run the throttled loop, log the
completion line, and raise a generic download failure when the terminal state
has the failure flag set. -/
def _handle_download_progress (samples : List DlSample) : List Nat × Except Unit Unit :=
  match progressLoop (-1) 0 samples with
  | (log, some true) => (log, .error ())
  | (log, _) => (log, .ok ())

/-! ## Auxiliary definitions used by theorem statements -/

/-- The scheme `urlparse` reports for an argument, `Option.none` when parsing
raises. -/
def urlparseScheme (arg : String) : Option String :=
  match urlparse arg with
  | .ok parsed => some parsed.scheme
  | .error _ => Option.none

/-- The condition under which `_escape_shell_arg` proceeds to OS escaping: the
argument reports no URL scheme (empty scheme, or `urlparse` raised). -/
def lacksUrlScheme (arg : String) : Bool :=
  match urlparse arg with
  | .ok parsed => parsed.scheme == ""
  | .error _ => true

/-- Specification-side escaping rule, stated the way the spec words it: every
character of the class is individually prefixed with a backslash, all other
characters pass through. Compared against the code-derived `escapePosix` /
`escapeWindows`. -/
def escapeEachSpec (special : Char → Bool) : List Char → List Char
  | [] => []
  | c :: cs => (if special c then ['\\', c] else [c]) ++ escapeEachSpec special cs

/-- A simulated download state advancing one percent every fifty milliseconds,
polled at every advance, starting from an arbitrary wall-clock origin. -/
def simulatedDownloadSamples : List DlSample :=
  (List.range 100).map (fun k => { progress := k, failed := false, timeMs := 1000000 + 50 * k }) ++
  [{ progress := 100, failed := false, timeMs := 1005000 }]

/-! # Theorems

Helper lemmas come first; each claim is settled by exactly one theorem, with a
closed witness where the theorem carries hypotheses. -/

theorem foldr_escape_eq_spec (special : Char → Bool) (l : List Char) (tail : List Char) :
    l.foldr (fun c acc => if special c then '\\' :: c :: acc else c :: acc) tail =
      escapeEachSpec special l ++ tail := by
  induction l with
  | nil => rfl
  | cons c cs ih =>
    simp only [List.foldr_cons, escapeEachSpec, ih]
    split <;> simp

theorem foldr_quote_escape_eq_spec (l : List Char) (tail : List Char) :
    l.foldr (fun c acc => if c = '"' then '\\' :: c :: acc else c :: acc) tail =
      escapeEachSpec (fun c => c == '"') l ++ tail := by
  induction l with
  | nil => rfl
  | cons c cs ih =>
    simp only [List.foldr_cons, escapeEachSpec, ih]
    split <;> simp_all

theorem escapePosix_eq_spec (arg : String) :
    escapePosix arg = String.mk (escapeEachSpec posixSpecialChar arg.data) := by
  simp [escapePosix, foldr_escape_eq_spec]

theorem escapeWindows_eq_spec (arg : String) :
    escapeWindows arg =
      (if arg.data.contains ' ' || arg.data.contains '"' ||
          arg.data.contains '&' || arg.data.contains '|' then
        String.mk ('"' :: (escapeEachSpec (fun c => c == '"') arg.data ++ ['"']))
      else arg) := by
  unfold escapeWindows
  split
  · rw [foldr_quote_escape_eq_spec]
  · rfl

theorem escape_shell_arg_of_lacksUrlScheme (onWindows : Bool) (arg : String)
    (h : lacksUrlScheme arg = true) :
    _escape_shell_arg onWindows arg =
      (if onWindows then escapeWindows arg else escapePosix arg) := by
  unfold _escape_shell_arg
  unfold lacksUrlScheme at h
  cases hu : urlparse arg with
  | error e => simp [hu]
  | ok parsed =>
    rw [hu] at h
    have hs : parsed.scheme = "" := by simpa using h
    simp [hu, hs]

/-- C4: for every (OS name, machine architecture) pair the platform resolver
returns one of the six tags `linux-x86_64`, `linux-aarch64`, `macosx-x86_64`,
`macosx-arm64`, `win-amd64`, `unknown`; the aliases `x86_64`/`amd64` and
`aarch64`/`arm64` resolve identically on Linux and macOS; any other
architecture on Linux resolves to `linux-x86_64` rather than failing; and on
Windows every architecture resolves to `win-amd64`. -/
theorem C4_platform_resolver :
    (∀ system machine processor : String,
      get_platform_name system machine processor ∈
        ["linux-x86_64", "linux-aarch64", "macosx-x86_64", "macosx-arm64",
         "win-amd64", "unknown"]) ∧
    (∀ processor : String,
      get_platform_name "linux" "x86_64" processor = get_platform_name "linux" "amd64" processor ∧
      get_platform_name "linux" "aarch64" processor = get_platform_name "linux" "arm64" processor ∧
      get_platform_name "darwin" "x86_64" processor = get_platform_name "darwin" "amd64" processor ∧
      get_platform_name "darwin" "aarch64" processor = get_platform_name "darwin" "arm64" processor) ∧
    (∀ machine processor : String,
      strToLower machine ≠ "x86_64" → strToLower machine ≠ "amd64" →
      strToLower machine ≠ "aarch64" → strToLower machine ≠ "arm64" →
      get_platform_name "linux" machine processor = "linux-x86_64") ∧
    (∀ machine processor : String,
      get_platform_name "windows" machine processor = "win-amd64") := by
  refine ⟨?_, ?_, ?_, ?_⟩
  · intro system machine processor
    unfold get_platform_name
    dsimp only
    split
    · split
      · simp
      · split <;> simp
    · split
      · split <;> simp
      · split <;> simp
  · intro processor
    exact ⟨rfl, rfl, rfl, rfl⟩
  · intro machine processor h1 h2 h3 h4
    unfold get_platform_name
    dsimp only
    rw [if_pos (by decide), if_neg (by simp [h1, h2]), if_neg (by simp [h3, h4])]
  · intro machine processor
    unfold get_platform_name
    dsimp only
    rw [if_neg (by decide), if_neg (by decide), if_pos (by decide)]

/-- C4 witness: concrete instantiation of the hypothesis-bearing conjunct, at
the unknown Linux architecture `riscv64`. -/
theorem C4_platform_resolver_witness :
    get_platform_name "linux" "riscv64" "" = "linux-x86_64" :=
  C4_platform_resolver.2.2.1 "riscv64" "" (by decide) (by decide) (by decide) (by decide)

/-- C5 counterexample: the claim says a Windows argument containing whitespace
is wrapped in double quotes, but the source tests only the literal space
character, so an argument whose only whitespace is a tab — whitespace by the
same character class the claim uses for POSIX — is returned unchanged, not
wrapped. -/
theorem C5_escape_shell_arg_counterexample :
    pyWhitespace '\t' = true ∧
    lacksUrlScheme "a\tb" = true ∧
    _escape_shell_arg true "a\tb" = "a\tb" ∧
    (_escape_shell_arg true "a\tb").data.head? = some 'a' := by
  exact ⟨rfl, rfl, rfl, rfl⟩

/-- C5 (amended): an argument that parses as a URL with a non-empty scheme is
returned unchanged; on Windows, an argument containing a space character (not
other whitespace), double quotes, an ampersand or a pipe is wrapped in double
quotes with internal double quotes backslash-escaped, and other arguments are
unchanged; on POSIX, every occurrence of a character from the class
double-quote, single-quote, whitespace, dollar, backquote, backslash,
parentheses, braces, brackets, pipe, ampersand, semicolon, angle brackets,
star, question mark, bang is individually prefixed with a backslash — so the
non-URL argument `a b` is escaped per the active OS rule. -/
theorem C5_escape_shell_arg_amended :
    (∀ (onWindows : Bool) (arg scheme : String),
      urlparseScheme arg = some scheme → scheme ≠ "" →
      _escape_shell_arg onWindows arg = arg) ∧
    (∀ arg : String, lacksUrlScheme arg = true →
      _escape_shell_arg true arg =
        (if arg.data.contains ' ' || arg.data.contains '"' ||
            arg.data.contains '&' || arg.data.contains '|' then
          String.mk ('"' :: (escapeEachSpec (fun c => c == '"') arg.data ++ ['"']))
        else arg)) ∧
    (∀ arg : String, lacksUrlScheme arg = true →
      _escape_shell_arg false arg = String.mk (escapeEachSpec posixSpecialChar arg.data)) ∧
    _escape_shell_arg false "a b" = "a\\ b" ∧
    _escape_shell_arg true "a b" = "\"a b\"" ∧
    (∀ onWindows : Bool,
      _escape_shell_arg onWindows "http://example.com/a b" = "http://example.com/a b") := by
  refine ⟨?_, ?_, ?_, rfl, rfl, ?_⟩
  · intro onWindows arg scheme hp hs
    unfold _escape_shell_arg
    unfold urlparseScheme at hp
    cases hu : urlparse arg with
    | error e => rw [hu] at hp; exact absurd hp (by simp)
    | ok parsed =>
      rw [hu] at hp
      have : parsed.scheme = scheme := by simpa using hp
      simp [hu, this, hs]
  · intro arg h
    rw [escape_shell_arg_of_lacksUrlScheme true arg h]
    simp only [if_pos rfl]
    exact escapeWindows_eq_spec arg
  · intro arg h
    rw [escape_shell_arg_of_lacksUrlScheme false arg h]
    simpa using escapePosix_eq_spec arg
  · intro onWindows
    cases onWindows <;> rfl

/-- C5 witness: the amended theorem instantiated at the concrete arguments
`a b` (escaped on both OS rules) and a URL with a space (passed through). -/
theorem C5_escape_shell_arg_amended_witness :
    _escape_shell_arg true "a b" = "\"a b\"" ∧
    _escape_shell_arg false "a b" = "a\\ b" ∧
    _escape_shell_arg false "http://example.com/a b" = "http://example.com/a b" := by
  refine ⟨?_, ?_, ?_⟩
  · rw [C5_escape_shell_arg_amended.2.1 "a b" rfl]; rfl
  · rw [C5_escape_shell_arg_amended.2.2.1 "a b" rfl]; rfl
  · exact C5_escape_shell_arg_amended.1 false "http://example.com/a b" "http" rfl (by decide)

/-- C10: `_escape_shell_arg` returns unchanged every argument for which
`urlparse` reports a non-empty scheme, including non-URL strings whose
letter-led first token before a colon makes a scheme — a Windows drive-letter
path such as `C:\tools\my app.exe` (scheme `c`) or a token such as `key:value`
(scheme `key`) — so their spaces and shell metacharacters reach the shell
unescaped. -/
theorem C10_scheme_led_passthrough :
    (∀ (onWindows : Bool) (arg scheme : String),
      urlparseScheme arg = some scheme → scheme ≠ "" →
      _escape_shell_arg onWindows arg = arg) ∧
    urlparseScheme "C:\\tools\\my app.exe" = some "c" ∧
    "C:\\tools\\my app.exe".data.contains ' ' = true ∧
    (∀ onWindows : Bool,
      _escape_shell_arg onWindows "C:\\tools\\my app.exe" = "C:\\tools\\my app.exe") ∧
    urlparseScheme "key:value" = some "key" ∧
    (∀ onWindows : Bool,
      _escape_shell_arg onWindows "key:value" = "key:value") := by
  refine ⟨?_, rfl, rfl, ?_, rfl, ?_⟩
  · intro onWindows arg scheme hp hs
    unfold _escape_shell_arg
    unfold urlparseScheme at hp
    cases hu : urlparse arg with
    | error e => rw [hu] at hp; exact absurd hp (by simp)
    | ok parsed =>
      rw [hu] at hp
      have : parsed.scheme = scheme := by simpa using hp
      simp [hu, this, hs]
  · intro onWindows; cases onWindows <;> rfl
  · intro onWindows; cases onWindows <;> rfl

/-- C10 witness: the universally quantified pass-through conjunct applied at
the drive-letter path with a space. -/
theorem C10_scheme_led_passthrough_witness :
    _escape_shell_arg true "C:\\tools\\my app.exe" = "C:\\tools\\my app.exe" :=
  C10_scheme_led_passthrough.1 true "C:\\tools\\my app.exe" "c" rfl (by decide)

theorem shouldDeleteFile_self (exe b v p : String)
    (h : parseVersionedName exe = some (b, v, p)) :
    shouldDeleteFile b v p exe = false := by
  unfold shouldDeleteFile
  rw [h]
  simp

theorem mem_pruneLoop_of_not_deleted (b v p : String) (fail : List String) (f : String)
    (hf : shouldDeleteFile b v p f = false) :
    ∀ l : List String, f ∈ l → f ∈ pruneLoop b v p fail l := by
  intro l
  induction l with
  | nil => intro h; exact absurd h (List.not_mem_nil f)
  | cons g rest ih =>
    intro hmem
    unfold pruneLoop
    by_cases hg : shouldDeleteFile b v p g = true
    · rw [if_pos hg]
      have hfg : f ≠ g := by
        intro he
        rw [he, hg] at hf
        exact Bool.noConfusion hf
      have hrest : f ∈ rest := by
        cases List.mem_cons.mp hmem with
        | inl h => exact absurd h hfg
        | inr h => exact h
      by_cases hc : fail.contains g = true
      · rw [if_pos hc]; exact hmem
      · rw [if_neg hc]; exact ih hrest
    · rw [if_neg hg]
      cases List.mem_cons.mp hmem with
      | inl h => rw [h]; exact List.mem_cons_self g _
      | inr h => exact List.mem_cons.mpr (Or.inr (ih h))

theorem mem_delete_older_self (l : List String) (exe : String) (fail : List String)
    (h : exe ∈ l) : exe ∈ _delete_older_binary_versions l exe fail := by
  unfold _delete_older_binary_versions
  cases hp : parseVersionedName exe with
  | none => exact h
  | some triple =>
    obtain ⟨b, v, p⟩ := triple
    exact mem_pruneLoop_of_not_deleted b v p fail exe (shouldDeleteFile_self exe b v p hp) l h

theorem pruneLoop_no_fail (b v p : String) (l : List String) :
    pruneLoop b v p [] l = l.filter (fun f => !(shouldDeleteFile b v p f)) := by
  induction l with
  | nil => rfl
  | cons f rest ih =>
    unfold pruneLoop
    by_cases h : shouldDeleteFile b v p f = true
    · simp [h, ih]
    · simp [Bool.eq_false_iff.mpr h, ih]

theorem get_binary_path_present (toolkitsPath toolkit : String) (config : ToolConfig)
    (plat bn url : String) (parsed : UrlSplit) (fail : List String) (fs : BinsState)
    (executable : String)
    (hu : get_binary_url config plat = some url) (hne : url ≠ "")
    (hp : urlparse url = .ok parsed)
    (hexe : executable =
      (if is_windows plat && !(strEndsWith (basename parsed.path) ".exe") then
        basename parsed.path ++ ".exe" else basename parsed.path))
    (hmem : executable ∈ fs.files) :
    get_binary_path toolkitsPath toolkit config plat bn false fail fs =
      { state := { binsDirExists := true, files := fs.files },
        effects :=
          { downloads := [],
            dirsCreated := if fs.binsDirExists then []
              else [toolkitsPath ++ "/" ++ toolkit ++ "/bins"],
            chmods := if is_windows plat then []
              else [(toolkitsPath ++ "/" ++ toolkit ++ "/bins" ++ "/" ++ executable, 493)],
            quarantineRemovals := [] },
        outcome := .ok (toolkitsPath ++ "/" ++ toolkit ++ "/bins" ++ "/" ++ executable) } := by
  subst hexe
  unfold get_binary_path
  rw [hu]
  simp only [Bool.false_eq_true, if_false]
  dsimp only
  rw [if_neg hne, hp]
  dsimp only
  rw [if_pos hmem]
  simp [BinEffects.none]

theorem get_binary_path_absent (toolkitsPath toolkit : String) (config : ToolConfig)
    (plat bn url : String) (parsed : UrlSplit) (fail : List String) (fs : BinsState)
    (executable : String)
    (hu : get_binary_url config plat = some url) (hne : url ≠ "")
    (hp : urlparse url = .ok parsed)
    (hexe : executable =
      (if is_windows plat && !(strEndsWith (basename parsed.path) ".exe") then
        basename parsed.path ++ ".exe" else basename parsed.path))
    (hmem : executable ∉ fs.files) :
    get_binary_path toolkitsPath toolkit config plat bn false fail fs =
      { state :=
          { binsDirExists := true,
            files := _delete_older_binary_versions
              (executable :: fs.files.erase executable) executable fail },
        effects :=
          { downloads := [url],
            dirsCreated := if fs.binsDirExists then []
              else [toolkitsPath ++ "/" ++ toolkit ++ "/bins"],
            chmods :=
              (if is_windows plat then []
                else [(toolkitsPath ++ "/" ++ toolkit ++ "/bins" ++ "/" ++ executable, 493)]) ++
              (if is_windows plat then []
                else [(toolkitsPath ++ "/" ++ toolkit ++ "/bins" ++ "/" ++ executable, 493)]),
            quarantineRemovals := if is_macos plat then
              [toolkitsPath ++ "/" ++ toolkit ++ "/bins" ++ "/" ++ executable] else [] },
        outcome := .ok (toolkitsPath ++ "/" ++ toolkit ++ "/bins" ++ "/" ++ executable) } := by
  subst hexe
  unfold get_binary_path
  rw [hu]
  simp only [Bool.false_eq_true, if_false]
  dsimp only
  rw [if_neg hne, hp]
  dsimp only
  rw [if_neg hmem]
  unfold _download_binary_on_demand
  simp

theorem get_binary_path_skip (toolkitsPath toolkit : String) (config : ToolConfig)
    (plat bn : String) (fail : List String) (fs : BinsState) :
    get_binary_path toolkitsPath toolkit config plat bn true fail fs =
      { state := fs, effects := BinEffects.none, outcome := .ok bn } := rfl

theorem get_binary_path_noUrl (toolkitsPath toolkit : String) (config : ToolConfig)
    (plat bn : String) (fail : List String) (fs : BinsState)
    (hu : get_binary_url config plat = Option.none) :
    get_binary_path toolkitsPath toolkit config plat bn false fail fs =
      { state := fs, effects := BinEffects.none,
        outcome := .error (.noBinaryUrl bn) } := by
  unfold get_binary_path
  rw [hu]
  rfl

theorem get_binary_path_emptyUrl (toolkitsPath toolkit : String) (config : ToolConfig)
    (plat bn : String) (fail : List String) (fs : BinsState)
    (hu : get_binary_url config plat = some "") :
    get_binary_path toolkitsPath toolkit config plat bn false fail fs =
      { state := fs, effects := BinEffects.none,
        outcome := .error (.noBinaryUrl bn) } := by
  unfold get_binary_path
  rw [hu]
  rfl

theorem get_binary_path_badUrl (toolkitsPath toolkit : String) (config : ToolConfig)
    (plat bn url : String) (e : Unit) (fail : List String) (fs : BinsState)
    (hu : get_binary_url config plat = some url) (hne : url ≠ "")
    (hp : urlparse url = .error e) :
    get_binary_path toolkitsPath toolkit config plat bn false fail fs =
      { state := fs, effects := BinEffects.none,
        outcome := .error (.invalidUrl url) } := by
  unfold get_binary_path
  rw [hu]
  simp only [Bool.false_eq_true, if_false]
  dsimp only
  rw [if_neg hne, hp]

/-- C1: `get_binary_path` is idempotent: for a toolkit/tool/binary whose
resolved target file already exists in the toolkit's bins directory, a call
returns that path without performing any download and, off Windows,
unconditionally re-applies the executable permission bit 0o755 before
returning; and two successive calls with no external filesystem mutation in
between trigger at most one network transfer in total. -/
theorem C1_ensure_binary_idempotent :
    (∀ (toolkitsPath toolkit : String) (config : ToolConfig)
        (plat bn url : String) (parsed : UrlSplit) (fail : List String)
        (fs : BinsState) (executable : String),
      get_binary_url config plat = some url → url ≠ "" →
      urlparse url = .ok parsed →
      executable =
        (if is_windows plat && !(strEndsWith (basename parsed.path) ".exe") then
          basename parsed.path ++ ".exe" else basename parsed.path) →
      executable ∈ fs.files →
      (get_binary_path toolkitsPath toolkit config plat bn false fail fs).outcome =
          .ok (toolkitsPath ++ "/" ++ toolkit ++ "/bins" ++ "/" ++ executable) ∧
      (get_binary_path toolkitsPath toolkit config plat bn false fail fs).effects.downloads = [] ∧
      (get_binary_path toolkitsPath toolkit config plat bn false fail fs).state.files = fs.files ∧
      (is_windows plat = false →
        (toolkitsPath ++ "/" ++ toolkit ++ "/bins" ++ "/" ++ executable, 493) ∈
          (get_binary_path toolkitsPath toolkit config plat bn false fail fs).effects.chmods)) ∧
    (∀ (toolkitsPath toolkit : String) (config : ToolConfig) (plat bn : String)
        (skip : Bool) (fail : List String) (fs : BinsState),
      ((get_binary_path toolkitsPath toolkit config plat bn skip fail fs).effects.downloads).length +
        ((get_binary_path toolkitsPath toolkit config plat bn skip fail
            (get_binary_path toolkitsPath toolkit config plat bn skip fail fs).state).effects.downloads).length
        ≤ 1) := by
  constructor
  · intro toolkitsPath toolkit config plat bn url parsed fail fs executable hu hne hp hexe hmem
    rw [get_binary_path_present toolkitsPath toolkit config plat bn url parsed fail fs
      executable hu hne hp hexe hmem]
    refine ⟨rfl, rfl, rfl, ?_⟩
    intro hw
    simp [hw]
  · intro toolkitsPath toolkit config plat bn skip fail fs
    cases skip with
    | true =>
      simp [get_binary_path_skip, BinEffects.none]
    | false =>
      cases hu : get_binary_url config plat with
      | none =>
        simp [get_binary_path_noUrl toolkitsPath toolkit config plat bn fail _ hu,
          BinEffects.none]
      | some url =>
        by_cases hne : url = ""
        · subst hne
          simp [get_binary_path_emptyUrl toolkitsPath toolkit config plat bn fail _ hu,
            BinEffects.none]
        · cases hp : urlparse url with
          | error e =>
            simp [get_binary_path_badUrl toolkitsPath toolkit config plat bn url e fail _
              hu hne hp, BinEffects.none]
          | ok parsed =>
            by_cases hmem :
                (if is_windows plat && !(strEndsWith (basename parsed.path) ".exe") then
                  basename parsed.path ++ ".exe" else basename parsed.path) ∈ fs.files
            · rw [get_binary_path_present toolkitsPath toolkit config plat bn url parsed
                fail fs _ hu hne hp rfl hmem]
              dsimp only
              rw [get_binary_path_present toolkitsPath toolkit config plat bn url parsed
                fail { binsDirExists := true, files := fs.files } _ hu hne hp rfl hmem]
              simp
            · rw [get_binary_path_absent toolkitsPath toolkit config plat bn url parsed
                fail fs _ hu hne hp rfl hmem]
              dsimp only
              rw [get_binary_path_present toolkitsPath toolkit config plat bn url parsed
                fail _ _ hu hne hp rfl
                (mem_delete_older_self _ _ fail (List.mem_cons_self _ _))]
              simp

/-- C1 witness: a concrete toolkit whose binary file is already present — the
call returns the path, downloads nothing, leaves the listing unchanged and
re-applies mode 0o755. -/
theorem C1_ensure_binary_idempotent_witness :
    (get_binary_path "bridges/toolkits" "tts"
        { binaries := [("linux-x86_64", "https://cdn.example.com/files/tool_1.1.0-linux-x86_64")],
          resources := [] }
        "linux-x86_64" "tool" false [] { binsDirExists := true, files := ["tool_1.1.0-linux-x86_64"] }).outcome =
      .ok ("bridges/toolkits" ++ "/" ++ "tts" ++ "/bins" ++ "/" ++ "tool_1.1.0-linux-x86_64") ∧
    (get_binary_path "bridges/toolkits" "tts"
        { binaries := [("linux-x86_64", "https://cdn.example.com/files/tool_1.1.0-linux-x86_64")],
          resources := [] }
        "linux-x86_64" "tool" false [] { binsDirExists := true, files := ["tool_1.1.0-linux-x86_64"] }).effects.downloads = [] ∧
    (get_binary_path "bridges/toolkits" "tts"
        { binaries := [("linux-x86_64", "https://cdn.example.com/files/tool_1.1.0-linux-x86_64")],
          resources := [] }
        "linux-x86_64" "tool" false [] { binsDirExists := true, files := ["tool_1.1.0-linux-x86_64"] }).state.files = ["tool_1.1.0-linux-x86_64"] ∧
    ("bridges/toolkits" ++ "/" ++ "tts" ++ "/bins" ++ "/" ++ "tool_1.1.0-linux-x86_64", 493) ∈
      (get_binary_path "bridges/toolkits" "tts"
        { binaries := [("linux-x86_64", "https://cdn.example.com/files/tool_1.1.0-linux-x86_64")],
          resources := [] }
        "linux-x86_64" "tool" false [] { binsDirExists := true, files := ["tool_1.1.0-linux-x86_64"] }).effects.chmods := by
  have h := C1_ensure_binary_idempotent.1 "bridges/toolkits" "tts"
    { binaries := [("linux-x86_64", "https://cdn.example.com/files/tool_1.1.0-linux-x86_64")],
      resources := [] }
    "linux-x86_64" "tool" "https://cdn.example.com/files/tool_1.1.0-linux-x86_64"
    { scheme := "https", netloc := "cdn.example.com", path := "/files/tool_1.1.0-linux-x86_64",
      query := "", fragment := "" }
    [] { binsDirExists := true, files := ["tool_1.1.0-linux-x86_64"] }
    "tool_1.1.0-linux-x86_64" rfl (by decide) rfl (by decide) (by decide)
  exact ⟨h.1, h.2.1, h.2.2.1, h.2.2.2 rfl⟩

/-- C3: after a fresh binary download of a file matching
`base_2.3.4-platform[.exe]`, a listed file is deleted exactly when it matches
the same pattern with the same base name and platform but a different version;
a new filename that does not match the pattern skips pruning entirely with no
error; a differently-named or differently-platformed file is never deleted; and
a failure while pruning is caught, so the surrounding acquisition returns the
same outcome as with no failure. -/
theorem C3_version_pruning :
    (∀ (bins : List String) (newExe base ver plat : String),
      parseVersionedName newExe = some (base, ver, plat) →
      ∀ f : String,
        (f ∈ _delete_older_binary_versions bins newExe [] ↔
          f ∈ bins ∧
            ¬ ∃ fb fv fp, parseVersionedName f = some (fb, fv, fp) ∧
              fb = base ∧ fp = plat ∧ fv ≠ ver)) ∧
    (∀ (bins : List String) (newExe : String) (fail : List String),
      parseVersionedName newExe = Option.none →
      _delete_older_binary_versions bins newExe fail = bins) ∧
    parseVersionedName "tool_1.1.0-linux-x86_64" = some ("tool", "1.1.0", "linux-x86_64") ∧
    _delete_older_binary_versions
        ["tool_1.0.0-linux-x86_64", "tool_1.1.0-linux-x86_64", "tool_1.0.0-win-amd64.exe",
         "other_1.0.0-linux-x86_64", "README"] "tool_1.1.0-linux-x86_64" [] =
      ["tool_1.1.0-linux-x86_64", "tool_1.0.0-win-amd64.exe",
       "other_1.0.0-linux-x86_64", "README"] ∧
    (∀ (toolkitsPath toolkit : String) (config : ToolConfig) (plat bn : String)
        (fail : List String) (fs : BinsState),
      (get_binary_path toolkitsPath toolkit config plat bn false fail fs).outcome =
        (get_binary_path toolkitsPath toolkit config plat bn false [] fs).outcome) := by
  refine ⟨?_, ?_, rfl, rfl, ?_⟩
  · intro bins newExe base ver plat hparse f
    unfold _delete_older_binary_versions
    rw [hparse]
    dsimp only
    rw [pruneLoop_no_fail, List.mem_filter]
    constructor
    · rintro ⟨hmem, hb⟩
      refine ⟨hmem, ?_⟩
      rintro ⟨fb, fv, fp, hf, hfb, hfp, hfv⟩
      unfold shouldDeleteFile at hb
      rw [hf] at hb
      simp [hfb, hfp, hfv] at hb
    · rintro ⟨hmem, hno⟩
      refine ⟨hmem, ?_⟩
      unfold shouldDeleteFile
      cases hf : parseVersionedName f with
      | none => rfl
      | some triple =>
        obtain ⟨fb, fv, fp⟩ := triple
        by_cases h1 : fb = base
        · by_cases h2 : fp = plat
          · by_cases h3 : fv = ver
            · simp [h1, h2, h3]
            · exact absurd ⟨fb, fv, fp, hf, h1, h2, h3⟩ hno
          · simp [h2]
        · simp [h1]
  · intro bins newExe fail hparse
    unfold _delete_older_binary_versions
    rw [hparse]
  · intro toolkitsPath toolkit config plat bn fail fs
    cases hu : get_binary_url config plat with
    | none =>
      rw [get_binary_path_noUrl toolkitsPath toolkit config plat bn fail fs hu,
        get_binary_path_noUrl toolkitsPath toolkit config plat bn [] fs hu]
    | some url =>
      by_cases hne : url = ""
      · subst hne
        rw [get_binary_path_emptyUrl toolkitsPath toolkit config plat bn fail fs hu,
          get_binary_path_emptyUrl toolkitsPath toolkit config plat bn [] fs hu]
      · cases hp : urlparse url with
        | error e =>
          rw [get_binary_path_badUrl toolkitsPath toolkit config plat bn url e fail fs hu hne hp,
            get_binary_path_badUrl toolkitsPath toolkit config plat bn url e [] fs hu hne hp]
        | ok parsed =>
          by_cases hmem :
              (if is_windows plat && !(strEndsWith (basename parsed.path) ".exe") then
                basename parsed.path ++ ".exe" else basename parsed.path) ∈ fs.files
          · rw [get_binary_path_present toolkitsPath toolkit config plat bn url parsed
              fail fs _ hu hne hp rfl hmem,
              get_binary_path_present toolkitsPath toolkit config plat bn url parsed
              [] fs _ hu hne hp rfl hmem]
          · rw [get_binary_path_absent toolkitsPath toolkit config plat bn url parsed
              fail fs _ hu hne hp rfl hmem,
              get_binary_path_absent toolkitsPath toolkit config plat bn url parsed
              [] fs _ hu hne hp rfl hmem]

/-- C3 witness: the iff conjunct instantiated at the superseded file (deleted)
and at a differently-platformed sibling (kept). -/
theorem C3_version_pruning_witness :
    "tool_1.0.0-linux-x86_64" ∉
      _delete_older_binary_versions
        ["tool_1.0.0-linux-x86_64", "tool_1.1.0-linux-x86_64", "tool_1.0.0-win-amd64.exe",
         "other_1.0.0-linux-x86_64", "README"] "tool_1.1.0-linux-x86_64" [] ∧
    "tool_1.0.0-win-amd64.exe" ∈
      _delete_older_binary_versions
        ["tool_1.0.0-linux-x86_64", "tool_1.1.0-linux-x86_64", "tool_1.0.0-win-amd64.exe",
         "other_1.0.0-linux-x86_64", "README"] "tool_1.1.0-linux-x86_64" [] := by
  constructor
  · intro hmem
    have h := (C3_version_pruning.1
      ["tool_1.0.0-linux-x86_64", "tool_1.1.0-linux-x86_64", "tool_1.0.0-win-amd64.exe",
       "other_1.0.0-linux-x86_64", "README"]
      "tool_1.1.0-linux-x86_64" "tool" "1.1.0" "linux-x86_64" rfl
      "tool_1.0.0-linux-x86_64").mp hmem
    exact h.2 ⟨"tool", "1.0.0", "linux-x86_64", rfl, rfl, rfl, by decide⟩
  · refine (C3_version_pruning.1
      ["tool_1.0.0-linux-x86_64", "tool_1.1.0-linux-x86_64", "tool_1.0.0-win-amd64.exe",
       "other_1.0.0-linux-x86_64", "README"]
      "tool_1.1.0-linux-x86_64" "tool" "1.1.0" "linux-x86_64" rfl
      "tool_1.0.0-win-amd64.exe").mpr ⟨by decide, ?_⟩
    rintro ⟨fb, fv, fp, hf, hfb, hfp, hfv⟩
    have h0 : parseVersionedName "tool_1.0.0-win-amd64.exe" =
        some ("tool", "1.0.0", "win-amd64") := rfl
    rw [h0] at hf
    simp only [Option.some.injEq, Prod.mk.injEq] at hf
    rw [← hf.2.2] at hfp
    exact absurd hfp (by decide)

/-- C7: when the configuration declares no binaries entry for the current
platform tag, `get_binary_url` returns no URL without raising, and
`get_binary_path` (with skip unset) raises `NoBinaryUrl` without creating any
directory (so none beyond the bins directory itself), without downloading
anything, and without touching the filesystem state. -/
theorem C7_no_binary_url :
    (∀ (config : ToolConfig) (plat : String),
      config.binaries.lookup plat = Option.none →
      get_binary_url config plat = Option.none) ∧
    (∀ (toolkitsPath toolkit : String) (config : ToolConfig) (plat bn : String)
        (fail : List String) (fs : BinsState),
      get_binary_url config plat = Option.none →
      (get_binary_path toolkitsPath toolkit config plat bn false fail fs).outcome =
          .error (.noBinaryUrl bn) ∧
      (get_binary_path toolkitsPath toolkit config plat bn false fail fs).effects.downloads = [] ∧
      (get_binary_path toolkitsPath toolkit config plat bn false fail fs).effects.dirsCreated = [] ∧
      (∀ d ∈ (get_binary_path toolkitsPath toolkit config plat bn false fail fs).effects.dirsCreated,
        d = toolkitsPath ++ "/" ++ toolkit ++ "/bins") ∧
      (get_binary_path toolkitsPath toolkit config plat bn false fail fs).state = fs) := by
  constructor
  · intro config plat h
    exact h
  · intro toolkitsPath toolkit config plat bn fail fs hu
    rw [get_binary_path_noUrl toolkitsPath toolkit config plat bn fail fs hu]
    refine ⟨rfl, rfl, rfl, ?_, rfl⟩
    intro d hd
    exact absurd hd (List.not_mem_nil d)

/-- C7 witness: a configuration with only a Linux binary, queried on the
Windows tag. -/
theorem C7_no_binary_url_witness :
    (get_binary_path "bridges/toolkits" "tts"
        { binaries := [("linux-x86_64", "https://cdn.example.com/files/tool")], resources := [] }
        "win-amd64" "tool" false [] { binsDirExists := false, files := [] }).outcome =
      .error (.noBinaryUrl "tool") ∧
    (get_binary_path "bridges/toolkits" "tts"
        { binaries := [("linux-x86_64", "https://cdn.example.com/files/tool")], resources := [] }
        "win-amd64" "tool" false [] { binsDirExists := false, files := [] }).effects.dirsCreated = [] := by
  have h := C7_no_binary_url.2 "bridges/toolkits" "tts"
    { binaries := [("linux-x86_64", "https://cdn.example.com/files/tool")], resources := [] }
    "win-amd64" "tool" [] { binsDirExists := false, files := [] } rfl
  exact ⟨h.1, h.2.2.1⟩

theorem is_resource_complete_cons (files : List (String × Nat)) (u : String)
    (rest : List String) :
    _is_resource_complete files (u :: rest) =
      (match resource_file_name u with
       | .error _ => .error ()
       | .ok name =>
         match files.lookup name with
         | Option.none => .ok false
         | some size => if size = 0 then .ok false
           else _is_resource_complete files rest) := rfl

theorem is_resource_complete_ok (files : List (String × Nat)) :
    ∀ urls : List String,
      (∀ u ∈ urls, ∃ n, resource_file_name u = .ok n) →
      ∃ b, _is_resource_complete files urls = .ok b := by
  intro urls
  induction urls with
  | nil => exact fun _ => ⟨true, rfl⟩
  | cons u rest ih =>
    intro h
    obtain ⟨n, hn⟩ := h u (List.mem_cons_self u rest)
    rw [is_resource_complete_cons, hn]
    dsimp only
    cases hl : files.lookup n with
    | none => exact ⟨false, rfl⟩
    | some size =>
      dsimp only
      by_cases hz : size = 0
      · exact ⟨false, by rw [if_pos hz]⟩
      · rw [if_neg hz]
        exact ih (fun v hv => h v (List.mem_cons_of_mem u hv))

theorem is_resource_complete_iff (files : List (String × Nat)) :
    ∀ urls : List String,
      (∀ u ∈ urls, ∃ n, resource_file_name u = .ok n) →
      (_is_resource_complete files urls = .ok true ↔
        ∀ u ∈ urls, ∃ n size, resource_file_name u = .ok n ∧
          files.lookup n = some size ∧ 0 < size) := by
  intro urls
  induction urls with
  | nil =>
    intro _
    constructor
    · intro _ u hu
      exact absurd hu (List.not_mem_nil u)
    · intro _
      rfl
  | cons u rest ih =>
    intro h
    obtain ⟨n, hn⟩ := h u (List.mem_cons_self u rest)
    rw [is_resource_complete_cons, hn]
    dsimp only
    cases hl : files.lookup n with
    | none =>
      dsimp only
      constructor
      · intro he
        exact absurd he (by simp)
      · intro hall
        obtain ⟨n2, s2, hn2, hl2, _⟩ := hall u (List.mem_cons_self u rest)
        rw [hn] at hn2
        have hnn : n = n2 := Except.ok.inj hn2
        rw [← hnn, hl] at hl2
        exact absurd hl2 (by simp)
    | some size =>
      dsimp only
      by_cases hz : size = 0
      · rw [if_pos hz]
        constructor
        · intro he
          exact absurd (Except.ok.inj he) Bool.noConfusion
        · intro hall
          obtain ⟨n2, s2, hn2, hl2, hs2⟩ := hall u (List.mem_cons_self u rest)
          rw [hn] at hn2
          have hnn : n = n2 := Except.ok.inj hn2
          rw [← hnn, hl] at hl2
          have hss : size = s2 := Option.some.inj hl2
          rw [← hss, hz] at hs2
          exact absurd hs2 (by decide)
      · rw [if_neg hz]
        rw [ih (fun v hv => h v (List.mem_cons_of_mem u hv))]
        constructor
        · intro hall v hv
          cases List.mem_cons.mp hv with
          | inl he =>
            exact he ▸ ⟨n, size, hn, hl, Nat.pos_of_ne_zero hz⟩
          | inr hm => exact hall v hm
        · intro hall v hv
          exact hall v (List.mem_cons_of_mem u hv)

theorem get_resource_path_complete (toolkitsPath toolkit : String) (config : ToolConfig)
    (resourceName : String) (hfAccessible : Bool) (transfer : String → Option Nat)
    (st : ResState) (urls : List String)
    (hr : config.resources.lookup resourceName = some urls) (hne : urls ≠ [])
    (hc : _is_resource_complete st.files urls = .ok true) :
    get_resource_path toolkitsPath toolkit config resourceName hfAccessible transfer st =
      { state := { dirExists := true, files := st.files },
        dirsCreated := if st.dirExists then []
          else [toolkitsPath ++ "/" ++ toolkit ++ "/bins/" ++ resourceName],
        attempted := [],
        outcome := .ok (toolkitsPath ++ "/" ++ toolkit ++ "/bins/" ++ resourceName) } := by
  unfold get_resource_path
  rw [hr]
  dsimp only
  rw [if_neg hne, hc]

theorem get_resource_path_incomplete (toolkitsPath toolkit : String) (config : ToolConfig)
    (resourceName : String) (hfAccessible : Bool) (transfer : String → Option Nat)
    (st : ResState) (urls : List String)
    (hr : config.resources.lookup resourceName = some urls) (hne : urls ≠ [])
    (hc : _is_resource_complete st.files urls = .ok false) :
    get_resource_path toolkitsPath toolkit config resourceName hfAccessible transfer st =
      { state :=
          (downloadResourceFiles hfAccessible transfer urls
            { dirExists := true, files := st.files }).1,
        dirsCreated := if st.dirExists then []
          else [toolkitsPath ++ "/" ++ toolkit ++ "/bins/" ++ resourceName],
        attempted :=
          (downloadResourceFiles hfAccessible transfer urls
            { dirExists := true, files := st.files }).2.1,
        outcome :=
          match (downloadResourceFiles hfAccessible transfer urls
              { dirExists := true, files := st.files }).2.2 with
          | .ok _ => .ok (toolkitsPath ++ "/" ++ toolkit ++ "/bins/" ++ resourceName)
          | .error e => .error e } := by
  unfold get_resource_path
  rw [hr]
  dsimp only
  rw [if_neg hne, hc]

theorem downloadResourceFiles_cons (hfAccessible : Bool) (transfer : String → Option Nat)
    (url : String) (rest : List String) (st : ResState) :
    downloadResourceFiles hfAccessible transfer (url :: rest) st =
      (match resource_file_name (set_hugging_face_url hfAccessible url) with
       | .error _ =>
         (st, [], .error (.invalidUrl (set_hugging_face_url hfAccessible url)))
       | .ok name =>
         match transfer (set_hugging_face_url hfAccessible url) with
         | Option.none =>
           (st, [set_hugging_face_url hfAccessible url],
             .error (.resourceFileDownloadFailed name))
         | some size =>
           if size = 0 then
             ({ st with files := writeResFile name size st.files },
               [set_hugging_face_url hfAccessible url],
               .error (.resourceFileDownloadFailed name))
           else
             ((downloadResourceFiles hfAccessible transfer rest
                 { st with files := writeResFile name size st.files }).1,
               set_hugging_face_url hfAccessible url ::
                 (downloadResourceFiles hfAccessible transfer rest
                   { st with files := writeResFile name size st.files }).2.1,
               (downloadResourceFiles hfAccessible transfer rest
                 { st with files := writeResFile name size st.files }).2.2)) := rfl

theorem downloadResourceFiles_attempted_cons (hfAccessible : Bool)
    (transfer : String → Option Nat) (u0 : String) (rest : List String) (st : ResState)
    (n0 : String) (hn0 : resource_file_name (set_hugging_face_url hfAccessible u0) = .ok n0) :
    (downloadResourceFiles hfAccessible transfer (u0 :: rest) st).2.1 ≠ [] := by
  rw [downloadResourceFiles_cons, hn0]
  dsimp only
  cases ht : transfer (set_hugging_face_url hfAccessible u0) with
  | none => simp
  | some size =>
    dsimp only
    by_cases hz : size = 0
    · rw [if_pos hz]; simp
    · rw [if_neg hz]; simp

theorem downloadResourceFiles_fails_at (hfAccessible : Bool) (transfer : String → Option Nat) :
    ∀ (pre : List String) (bad : String) (post : List String) (st : ResState) (nb : String),
      (∀ u ∈ pre, ∃ n s, resource_file_name (set_hugging_face_url hfAccessible u) = .ok n ∧
        transfer (set_hugging_face_url hfAccessible u) = some s ∧ 0 < s) →
      resource_file_name (set_hugging_face_url hfAccessible bad) = .ok nb →
      (transfer (set_hugging_face_url hfAccessible bad) = Option.none ∨
        transfer (set_hugging_face_url hfAccessible bad) = some 0) →
      (downloadResourceFiles hfAccessible transfer (pre ++ bad :: post) st).2.1 =
          (pre ++ [bad]).map (set_hugging_face_url hfAccessible) ∧
      (downloadResourceFiles hfAccessible transfer (pre ++ bad :: post) st).2.2 =
        .error (.resourceFileDownloadFailed nb) := by
  intro pre
  induction pre with
  | nil =>
    intro bad post st nb hpre hnb hbad
    rw [List.nil_append, downloadResourceFiles_cons, hnb]
    dsimp only
    cases hbad with
    | inl hb => rw [hb]; exact ⟨rfl, rfl⟩
    | inr hb => rw [hb]; dsimp only; rw [if_pos rfl]; exact ⟨rfl, rfl⟩
  | cons u pre ih =>
    intro bad post st nb hpre hnb hbad
    obtain ⟨n, s, hn, ht, hs⟩ := hpre u (List.mem_cons_self u pre)
    have hrec := ih bad post { st with files := writeResFile n s st.files } nb
      (fun v hv => hpre v (List.mem_cons_of_mem u hv)) hnb hbad
    rw [List.cons_append, downloadResourceFiles_cons, hn]
    dsimp only
    rw [ht]
    dsimp only
    rw [if_neg (Nat.pos_iff_ne_zero.mp hs)]
    dsimp only
    exact ⟨by rw [hrec.1]; rfl, hrec.2⟩

/-- C2: the completeness check of the resource store derives, for every
declared URL of the bundle, the filename from the URL path with query
parameters stripped, and succeeds exactly when every such file exists in the
resource directory with non-zero size; `get_resource_path` returns the
resource directory with no transfer attempted exactly when that condition
holds, and otherwise proceeds to the download phase for the bundle. -/
theorem C2_resource_bundle_completeness :
    (∀ (files : List (String × Nat)) (urls : List String),
      (∀ u ∈ urls, ∃ n, resource_file_name u = .ok n) →
      (_is_resource_complete files urls = .ok true ↔
        ∀ u ∈ urls, ∃ n size, resource_file_name u = .ok n ∧
          files.lookup n = some size ∧ 0 < size)) ∧
    (∀ (toolkitsPath toolkit : String) (config : ToolConfig) (resourceName : String)
        (hfAccessible : Bool) (transfer : String → Option Nat) (st : ResState)
        (u0 : String) (rest : List String),
      config.resources.lookup resourceName = some (u0 :: rest) →
      (∀ u ∈ u0 :: rest, ∃ n, resource_file_name u = .ok n) →
      (∃ n0, resource_file_name (set_hugging_face_url hfAccessible u0) = .ok n0) →
      ((get_resource_path toolkitsPath toolkit config resourceName hfAccessible
            transfer st).outcome =
            .ok (toolkitsPath ++ "/" ++ toolkit ++ "/bins/" ++ resourceName) ∧
          (get_resource_path toolkitsPath toolkit config resourceName hfAccessible
            transfer st).attempted = [] ↔
        ∀ u ∈ u0 :: rest, ∃ n size, resource_file_name u = .ok n ∧
          st.files.lookup n = some size ∧ 0 < size)) := by
  constructor
  · exact fun files urls h => is_resource_complete_iff files urls h
  · intro toolkitsPath toolkit config resName hf transfer st u0 rest hr hparse hadj
    have hne : (u0 :: rest) ≠ [] := List.cons_ne_nil u0 rest
    obtain ⟨b, hb⟩ := is_resource_complete_ok st.files (u0 :: rest) hparse
    cases b with
    | true =>
      rw [get_resource_path_complete toolkitsPath toolkit config resName hf transfer st
        (u0 :: rest) hr hne hb]
      constructor
      · intro _
        exact (is_resource_complete_iff st.files (u0 :: rest) hparse).mp hb
      · intro _
        exact ⟨rfl, rfl⟩
    | false =>
      rw [get_resource_path_incomplete toolkitsPath toolkit config resName hf transfer st
        (u0 :: rest) hr hne hb]
      constructor
      · rintro ⟨_, hatt⟩
        exfalso
        obtain ⟨n0, hn0⟩ := hadj
        exact downloadResourceFiles_attempted_cons hf transfer u0 rest
          { dirExists := true, files := st.files } n0 hn0 hatt
      · intro hall
        exfalso
        have hco := (is_resource_complete_iff st.files (u0 :: rest) hparse).mpr hall
        rw [hb] at hco
        exact absurd (Except.ok.inj hco) Bool.noConfusion

/-- C2 witness: a bundle of two declared URLs (one with a query) whose files
are present and non-empty — the call returns the directory with no transfer
attempted. -/
theorem C2_resource_bundle_completeness_witness :
    (get_resource_path "bridges/toolkits" "tts"
        { binaries := [],
          resources := [("voices", ["https://host/a/f1.bin?x=1", "https://host/a/f2.bin"])] }
        "voices" true (fun _ => some 1)
        { dirExists := true, files := [("f1.bin", 3), ("f2.bin", 5)] }).outcome =
      .ok ("bridges/toolkits" ++ "/" ++ "tts" ++ "/bins/" ++ "voices") ∧
    (get_resource_path "bridges/toolkits" "tts"
        { binaries := [],
          resources := [("voices", ["https://host/a/f1.bin?x=1", "https://host/a/f2.bin"])] }
        "voices" true (fun _ => some 1)
        { dirExists := true, files := [("f1.bin", 3), ("f2.bin", 5)] }).attempted = [] := by
  apply (C2_resource_bundle_completeness.2 "bridges/toolkits" "tts"
    { binaries := [],
      resources := [("voices", ["https://host/a/f1.bin?x=1", "https://host/a/f2.bin"])] }
    "voices" true (fun _ => some 1)
    { dirExists := true, files := [("f1.bin", 3), ("f2.bin", 5)] }
    "https://host/a/f1.bin?x=1" ["https://host/a/f2.bin"] rfl ?_ ?_).mpr ?_
  · intro u hu
    rcases List.mem_cons.mp hu with h | h
    · subst h; exact ⟨"f1.bin", rfl⟩
    · rcases List.mem_cons.mp h with h2 | h2
      · subst h2; exact ⟨"f2.bin", rfl⟩
      · exact absurd h2 (List.not_mem_nil u)
  · exact ⟨"f1.bin", rfl⟩
  · intro u hu
    rcases List.mem_cons.mp hu with h | h
    · subst h; exact ⟨"f1.bin", 3, rfl, rfl, by decide⟩
    · rcases List.mem_cons.mp h with h2 | h2
      · subst h2; exact ⟨"f2.bin", 5, rfl, rfl, by decide⟩
      · exact absurd h2 (List.not_mem_nil u)

/-- C8: during resource bundle acquisition, the first downloaded file left
missing or zero-length after its transfer fails the whole acquisition with
`ResourceFileDownloadFailed` naming that file; the error propagates to the
caller and no file after the failing one is attempted. -/
theorem C8_resource_download_failure :
    ∀ (toolkitsPath toolkit : String) (config : ToolConfig) (resourceName : String)
      (hfAccessible : Bool) (transfer : String → Option Nat) (st : ResState)
      (urls pre post : List String) (bad nb : String),
      config.resources.lookup resourceName = some urls →
      urls = pre ++ bad :: post →
      _is_resource_complete st.files urls = .ok false →
      (∀ u ∈ pre, ∃ n s, resource_file_name (set_hugging_face_url hfAccessible u) = .ok n ∧
        transfer (set_hugging_face_url hfAccessible u) = some s ∧ 0 < s) →
      resource_file_name (set_hugging_face_url hfAccessible bad) = .ok nb →
      (transfer (set_hugging_face_url hfAccessible bad) = Option.none ∨
        transfer (set_hugging_face_url hfAccessible bad) = some 0) →
      (get_resource_path toolkitsPath toolkit config resourceName hfAccessible
          transfer st).outcome = .error (.resourceFileDownloadFailed nb) ∧
      (get_resource_path toolkitsPath toolkit config resourceName hfAccessible
          transfer st).attempted =
        (pre ++ [bad]).map (set_hugging_face_url hfAccessible) := by
  intro toolkitsPath toolkit config resName hf transfer st urls pre post bad nb
    hr hsplit hc hpre hnb hbad
  have hne : urls ≠ [] := by
    rw [hsplit]
    intro he
    exact absurd (List.append_eq_nil.mp he).2 (List.cons_ne_nil bad post)
  rw [get_resource_path_incomplete toolkitsPath toolkit config resName hf transfer st
    urls hr hne hc]
  have hfail := downloadResourceFiles_fails_at hf transfer pre bad post
    { dirExists := true, files := st.files } nb hpre hnb hbad
  rw [← hsplit] at hfail
  refine ⟨?_, hfail.1⟩
  dsimp only
  rw [hfail.2]

/-- C8 witness: a two-file bundle whose second transfer leaves a zero-length
file — the acquisition fails naming `f2.bin` and attempts exactly the first
two URLs. -/
theorem C8_resource_download_failure_witness :
    (get_resource_path "bridges/toolkits" "tts"
        { binaries := [],
          resources := [("voices", ["https://host/a/f1.bin", "https://host/a/f2.bin"])] }
        "voices" true
        (fun u => if u = "https://host/a/f2.bin" then some 0 else some 7)
        { dirExists := true, files := [] }).outcome =
      .error (.resourceFileDownloadFailed "f2.bin") ∧
    (get_resource_path "bridges/toolkits" "tts"
        { binaries := [],
          resources := [("voices", ["https://host/a/f1.bin", "https://host/a/f2.bin"])] }
        "voices" true
        (fun u => if u = "https://host/a/f2.bin" then some 0 else some 7)
        { dirExists := true, files := [] }).attempted =
      ["https://host/a/f1.bin", "https://host/a/f2.bin"] := by
  have h := C8_resource_download_failure "bridges/toolkits" "tts"
    { binaries := [],
      resources := [("voices", ["https://host/a/f1.bin", "https://host/a/f2.bin"])] }
    "voices" true
    (fun u => if u = "https://host/a/f2.bin" then some 0 else some 7)
    { dirExists := true, files := [] }
    ["https://host/a/f1.bin", "https://host/a/f2.bin"]
    ["https://host/a/f1.bin"] [] "https://host/a/f2.bin" "f2.bin"
    rfl rfl rfl ?_ rfl (Or.inr rfl)
  · exact ⟨h.1, by rw [h.2]; decide⟩
  · intro u hu
    rcases List.mem_cons.mp hu with he | he
    · subst he; exact ⟨"f1.bin", 7, rfl, rfl, by decide⟩
    · exact absurd he (List.not_mem_nil u)

/-- C6: synchronous execution outcome classification — exit code zero returns
the captured stdout; a non-zero exit raises `CommandFailed` carrying the exit
code and the captured stderr; expiry of the caller-configured timeout raises
`CommandTimeout` carrying exactly the configured duration (a 1-second timeout
against a 5-second command yields 1); any other launch failure raises
`CommandError`; and every run falls in exactly one of these four cases. -/
theorem C6_sync_execution_classification :
    (∀ (b : CommandBehavior) (timeout : Option Nat),
      b.launchOk = true →
      (timeout = Option.none ∨ ∃ t, timeout = some t ∧ b.runSeconds ≤ t) →
      b.exitCode = 0 →
      _execute_sync_command b timeout = .ok b.stdout) ∧
    (∀ (b : CommandBehavior) (timeout : Option Nat),
      b.launchOk = true →
      (timeout = Option.none ∨ ∃ t, timeout = some t ∧ b.runSeconds ≤ t) →
      b.exitCode ≠ 0 →
      _execute_sync_command b timeout = .error (.commandFailed b.exitCode b.stderr)) ∧
    (∀ (b : CommandBehavior) (t : Nat),
      b.launchOk = true → t < b.runSeconds →
      _execute_sync_command b (some t) = .error (.commandTimeout t)) ∧
    (∀ (b : CommandBehavior) (timeout : Option Nat),
      b.launchOk = false →
      _execute_sync_command b timeout = .error (.commandError b.launchErrorMsg)) ∧
    (∀ b : CommandBehavior,
      b.launchOk = true → b.runSeconds = 5 →
      _execute_sync_command b (some 1) = .error (.commandTimeout 1)) ∧
    (∀ (b : CommandBehavior) (timeout : Option Nat),
      (∃ out, _execute_sync_command b timeout = .ok out) ∨
      (∃ code err, _execute_sync_command b timeout = .error (.commandFailed code err) ∧
        code ≠ 0) ∨
      (∃ t, _execute_sync_command b timeout = .error (.commandTimeout t) ∧
        timeout = some t) ∨
      (∃ msg, _execute_sync_command b timeout = .error (.commandError msg))) := by
  refine ⟨?_, ?_, ?_, ?_, ?_, ?_⟩
  · intro b timeout hl hto hz
    cases hto with
    | inl h => simp [_execute_sync_command, runProcess, hl, h, hz]
    | inr h =>
      obtain ⟨t, hts, hle⟩ := h
      simp [_execute_sync_command, runProcess, hl, hts, hz, Nat.not_lt.mpr hle]
  · intro b timeout hl hto hz
    cases hto with
    | inl h => simp [_execute_sync_command, runProcess, hl, h, hz]
    | inr h =>
      obtain ⟨t, hts, hle⟩ := h
      simp [_execute_sync_command, runProcess, hl, hts, hz, Nat.not_lt.mpr hle]
  · intro b t hl hlt
    simp [_execute_sync_command, runProcess, hl, hlt]
  · intro b timeout hl
    simp [_execute_sync_command, runProcess, hl]
  · intro b hl hrun
    simp [_execute_sync_command, runProcess, hl, hrun]
  · intro b timeout
    by_cases hl : b.launchOk = true
    · cases timeout with
      | none =>
        by_cases hz : b.exitCode = 0
        · exact Or.inl ⟨b.stdout, by simp [_execute_sync_command, runProcess, hl, hz]⟩
        · exact Or.inr (Or.inl ⟨b.exitCode, b.stderr,
            by simp [_execute_sync_command, runProcess, hl, hz], hz⟩)
      | some t =>
        by_cases hd : t < b.runSeconds
        · exact Or.inr (Or.inr (Or.inl ⟨t,
            by simp [_execute_sync_command, runProcess, hl, hd], rfl⟩))
        · by_cases hz : b.exitCode = 0
          · exact Or.inl ⟨b.stdout,
              by simp [_execute_sync_command, runProcess, hl, hd, hz]⟩
          · exact Or.inr (Or.inl ⟨b.exitCode, b.stderr,
              by simp [_execute_sync_command, runProcess, hl, hd, hz], hz⟩)
    · have hf : b.launchOk = false := by
        revert hl
        cases b.launchOk <;> simp
      exact Or.inr (Or.inr (Or.inr ⟨b.launchErrorMsg,
        by simp [_execute_sync_command, runProcess, hf]⟩))

theorem progressLoop_cons (lp : Int) (lt : Nat) (s : DlSample) (rest : List DlSample) :
    progressLoop lp lt (s :: rest) =
      (if s.progress < 100 && !s.failed then
        if (s.progress : Int) ≥ lp + 5 || s.timeMs - lt ≥ 2000 || s.progress = 100 then
          (s.progress :: (progressLoop (s.progress : Int) s.timeMs rest).1,
            (progressLoop (s.progress : Int) s.timeMs rest).2)
        else progressLoop lp lt rest
      else ([], some s.failed)) := rfl

theorem progressLoop_terminal (lp : Int) (lt : Nat) (s : DlSample) (rest : List DlSample)
    (h : 100 ≤ s.progress ∨ s.failed = true) :
    progressLoop lp lt (s :: rest) = ([], some s.failed) := by
  rw [progressLoop_cons]
  have hc : (s.progress < 100 && !s.failed) = false := by
    cases h with
    | inl h => simp [Nat.not_lt.mpr h]
    | inr h => simp [h]
  rw [hc]
  rfl

theorem progressLoop_length :
    ∀ (samples : List DlSample) (lp : Int) (lt : Nat),
      (progressLoop lp lt samples).1.length ≤ samples.length := by
  intro samples
  induction samples with
  | nil => intro lp lt; exact Nat.le_refl 0
  | cons s rest ih =>
    intro lp lt
    rw [progressLoop_cons]
    split
    · split
      · exact Nat.succ_le_succ (ih _ _)
      · exact Nat.le_succ_of_le (ih lp lt)
    · exact Nat.zero_le _

theorem progressLoop_stops (term : DlSample) (post : List DlSample)
    (hterm : 100 ≤ term.progress ∨ term.failed = true) :
    ∀ (pre : List DlSample) (lp : Int) (lt : Nat),
      (∀ s ∈ pre, s.progress < 100 ∧ s.failed = false) →
      progressLoop lp lt (pre ++ term :: post) = progressLoop lp lt (pre ++ [term]) := by
  intro pre
  induction pre with
  | nil =>
    intro lp lt _
    rw [List.nil_append, List.nil_append,
      progressLoop_terminal lp lt term post hterm,
      progressLoop_terminal lp lt term [] hterm]
  | cons s pre ih =>
    intro lp lt hpre
    obtain ⟨h1, h2⟩ := hpre s (List.mem_cons_self s pre)
    have hc : (s.progress < 100 && !s.failed) = true := by simp [h1, h2]
    rw [List.cons_append, List.cons_append, progressLoop_cons, progressLoop_cons, hc,
      if_pos rfl, if_pos rfl]
    by_cases hlog : (s.progress : Int) ≥ lp + 5 ∨ s.timeMs - lt ≥ 2000 ∨ s.progress = 100
    · rw [if_pos (by simpa [or_assoc, and_assoc] using hlog), if_pos (by simpa [or_assoc, and_assoc] using hlog),
        ih (s.progress : Int) s.timeMs (fun v hv => hpre v (List.mem_cons_of_mem s hv))]
    · rw [if_neg (by simpa [or_assoc, and_assoc] using hlog), if_neg (by simpa [or_assoc, and_assoc] using hlog)]
      exact ih lp lt (fun v hv => hpre v (List.mem_cons_of_mem s hv))

theorem progressLoop_snd_terminal (term : DlSample) (post : List DlSample)
    (hterm : 100 ≤ term.progress ∨ term.failed = true) :
    ∀ (pre : List DlSample) (lp : Int) (lt : Nat),
      (∀ s ∈ pre, s.progress < 100 ∧ s.failed = false) →
      (progressLoop lp lt (pre ++ term :: post)).2 = some term.failed := by
  intro pre
  induction pre with
  | nil =>
    intro lp lt _
    rw [List.nil_append, progressLoop_terminal lp lt term post hterm]
  | cons s pre ih =>
    intro lp lt hpre
    obtain ⟨h1, h2⟩ := hpre s (List.mem_cons_self s pre)
    have hc : (s.progress < 100 && !s.failed) = true := by simp [h1, h2]
    rw [List.cons_append, progressLoop_cons, hc, if_pos rfl]
    by_cases hlog : (s.progress : Int) ≥ lp + 5 ∨ s.timeMs - lt ≥ 2000 ∨ s.progress = 100
    · rw [if_pos (by simpa [or_assoc, and_assoc] using hlog)]
      exact ih (s.progress : Int) s.timeMs (fun v hv => hpre v (List.mem_cons_of_mem s hv))
    · rw [if_neg (by simpa [or_assoc, and_assoc] using hlog)]
      exact ih lp lt (fun v hv => hpre v (List.mem_cons_of_mem s hv))

/-- C9: download-progress throttling — at most one log line is emitted per
polled sample; a non-terminal sample is emitted exactly when its integer
percent has advanced by at least 5 points since the last emitted sample, or at
least 2000 ms have elapsed since the last emission, or the percent has reached
100; a simulated state advancing 1% every 50 ms yields a line every 5% (the
percents 0, 5, …, 95), not every 1%; the loop stops at the first sample whose
percent reaches 100 or whose failure flag is set, ignoring anything after it;
and a failed terminal state raises a generic download failure. -/
theorem C9_progress_throttling :
    (∀ (samples : List DlSample) (lp : Int) (lt : Nat),
      (progressLoop lp lt samples).1.length ≤ samples.length) ∧
    (∀ (lp : Int) (lt : Nat) (s : DlSample) (rest : List DlSample),
      s.progress < 100 → s.failed = false →
      (((s.progress : Int) ≥ lp + 5 ∨ s.timeMs - lt ≥ 2000 ∨ s.progress = 100) →
        progressLoop lp lt (s :: rest) =
          (s.progress :: (progressLoop (s.progress : Int) s.timeMs rest).1,
            (progressLoop (s.progress : Int) s.timeMs rest).2)) ∧
      (¬((s.progress : Int) ≥ lp + 5 ∨ s.timeMs - lt ≥ 2000 ∨ s.progress = 100) →
        progressLoop lp lt (s :: rest) = progressLoop lp lt rest)) ∧
    _handle_download_progress simulatedDownloadSamples =
      ([0, 5, 10, 15, 20, 25, 30, 35, 40, 45, 50, 55, 60, 65, 70, 75, 80, 85, 90, 95],
        .ok ()) ∧
    (∀ (term : DlSample) (post pre : List DlSample) (lp : Int) (lt : Nat),
      100 ≤ term.progress ∨ term.failed = true →
      (∀ s ∈ pre, s.progress < 100 ∧ s.failed = false) →
      progressLoop lp lt (pre ++ term :: post) = progressLoop lp lt (pre ++ [term])) ∧
    (∀ (term : DlSample) (post pre : List DlSample),
      term.failed = true →
      (∀ s ∈ pre, s.progress < 100 ∧ s.failed = false) →
      (_handle_download_progress (pre ++ term :: post)).2 = .error ()) := by
  refine ⟨progressLoop_length, ?_, ?_, ?_, ?_⟩
  · intro lp lt s rest h1 h2
    have hc : (s.progress < 100 && !s.failed) = true := by simp [h1, h2]
    constructor
    · intro hlog
      rw [progressLoop_cons, hc, if_pos rfl, if_pos (by simpa [or_assoc, and_assoc] using hlog)]
    · intro hlog
      rw [progressLoop_cons, hc, if_pos rfl, if_neg (by simpa [or_assoc, and_assoc] using hlog)]
  · rfl
  · intro term post pre lp lt hterm hpre
    exact progressLoop_stops term post hterm pre lp lt hpre
  · intro term post pre hfail hpre
    unfold _handle_download_progress
    have hsnd := progressLoop_snd_terminal term post (Or.inr hfail) pre (-1) 0 hpre
    rcases hres : progressLoop (-1) 0 (pre ++ term :: post) with ⟨log, tflag⟩
    rw [hres] at hsnd
    dsimp only at hsnd
    rw [hsnd, hfail]

/-- C9 witness: the emission rule applied at a concrete sample that advanced 10
points (emitted), and the failure conjunct at a concrete failed state. -/
theorem C9_progress_throttling_witness :
    progressLoop 0 4000 [{ progress := 10, failed := false, timeMs := 5000 }] =
      ([10], Option.none) ∧
    (_handle_download_progress [{ progress := 50, failed := true, timeMs := 0 }]).2 =
      .error () := by
  constructor
  · rw [(C9_progress_throttling.2.1 0 4000
      { progress := 10, failed := false, timeMs := 5000 } [] (by decide) rfl).1
      (Or.inl (by decide))]
    rfl
  · exact C9_progress_throttling.2.2.2.2
      { progress := 50, failed := true, timeMs := 0 } [] [] rfl
      (fun s hs => absurd hs (List.not_mem_nil s))

/-- C6 witness: a healthy command that runs five seconds under a one-second
timeout raises `CommandTimeout` carrying 1. -/
theorem C6_sync_execution_classification_witness :
    _execute_sync_command
      { launchOk := true, launchErrorMsg := "", runSeconds := 5, exitCode := 0,
        stdout := "out", stderr := "err" } (some 1) =
      .error (.commandTimeout 1) :=
  C6_sync_execution_classification.2.2.2.2.1
    { launchOk := true, launchErrorMsg := "", runSeconds := 5, exitCode := 0,
      stdout := "out", stderr := "err" } rfl rfl

end JarvisOS
